import Mathlib

/-!
Verification of the publish scheduler, classification, trend, extremes and
RSSI logic of the thermometer firmware (src/thermometer.ino).

Machine-integer notes: the C code uses `byte` for cursors and batch counters
and `unsigned long` for millisecond timestamps.  The cursors and counters are
modelled as `Nat` because in every execution their values stay far below 256
(the cursor is reset to 0 or 1 whenever it reaches the table length, and the
batch counter is only incremented while it is below the quota 4), so no byte
wrap-around is reachable.  Unsigned-long subtraction `millis() - ts` is
modelled explicitly modulo 2^32 by `wrapSub`.  C `float` quantities are
modelled as `ℚ`: every operation the claims touch is a comparison, min/max,
or a single multiply/divide on exactly-representable values.

The two publish loops contain an uninitialized read: in the `default:` case
of the `switch`, `break` only leaves the `switch`, after which
`if (!publishSuccess) break;` reads the local `bool publishSuccess` that no
`case` assigned in that iteration.  The value of that indeterminate read is
modelled by an explicit oracle (`indetB`, `indetV`), indexed by the loop
iteration; theorems quantify over the oracle or evaluate both outcomes.
-/

namespace Thermometer

/-- `PARTICLE_BATCH_LIMIT` from the source: hard quota of messages per
publish invocation. -/
def PARTICLE_BATCH_LIMIT : Nat := 4

/-- Result of one run of the boot-phase loop `publishParticleInits`:
the `particlePublishAfterBoot` flag, the static cursor `sendMsgNo`, the
`batchMsgs` counter, the number of publish attempts consumed from the
success oracle, the trace of publish attempts `(message index, success)`,
and whether the loop reached its own exit (fuel did not run out). -/
structure BootResult where
  flag   : Bool
  cursor : Nat
  batch  : Nat
  att    : Nat
  trace  : List (Nat × Bool)
  done   : Bool
  deriving DecidableEq

/-- Faithful model of the `while` loop of `publishParticleInits`
(src/thermometer.ino lines 326-367), parametric in the boot table length
`n` (number of `case` labels: 5 when `PHOTON_PUBLISH_DEBUG` is defined) and
quota `Q`.  `pubOk att` is the result of the `att`-th `Particle.publish`
call of the whole invocation; `indetB it` is the indeterminate value read
from the uninitialized `publishSuccess` in iteration `it` (reached in the
`default:` case, which sets the flag false and the cursor to 0, whose
`break` leaves only the `switch`). -/
def bootLoop (n Q : Nat) (pubOk indetB : Nat → Bool) :
    Nat → Bool → Nat → Nat → Nat → Nat → List (Nat × Bool) → BootResult
  | 0, flag, s, b, att, _, tr => ⟨flag, s, b, att, tr, false⟩
  | fuel+1, flag, s, b, att, it, tr =>
    if flag ∧ b < Q then
      if s < n then
        if pubOk att then
          bootLoop n Q pubOk indetB fuel flag (s+1) (b+1) (att+1) (it+1)
            (tr ++ [(s, true)])
        else ⟨flag, s, b, att+1, tr ++ [(s, false)], true⟩
      else
        if indetB it then
          bootLoop n Q pubOk indetB fuel false 1 (b+1) att (it+1) tr
        else ⟨false, 0, b, att, tr, true⟩
    else ⟨flag, s, b, att, tr, true⟩

/-- Result of one run of the value-phase loop `publishParticleValues`. -/
structure ValueResult where
  cursor : Nat
  batch  : Nat
  att    : Nat
  trace  : List (Nat × Bool)
  done   : Bool
  deriving DecidableEq

/-- Faithful model of the `while` loop of `publishParticleValues`
(src/thermometer.ino lines 370-414), parametric in the value table length
`n` (5 in thermometer.ino; 3 in the thermometer01 variant with
`PHOTON_PUBLISH_DEBUG` off).  `start` is `startMsgNo`, fixed at entry.  In
the `default:` case the cursor wraps to 0 and the loop `continue`s exactly
when `startMsgNo > 0`; otherwise the `break` leaves the `switch` and the
uninitialized `publishSuccess` is read (oracle `indetV`). -/
def valueLoop (n Q start : Nat) (pubOk indetV : Nat → Bool) :
    Nat → Nat → Nat → Nat → Nat → List (Nat × Bool) → ValueResult
  | 0, s, b, att, _, tr => ⟨s, b, att, tr, false⟩
  | fuel+1, s, b, att, it, tr =>
    if b < Q then
      if s < n then
        if pubOk att then
          valueLoop n Q start pubOk indetV fuel (s+1) (b+1) (att+1) (it+1)
            (tr ++ [(s, true)])
        else ⟨s, b, att+1, tr ++ [(s, false)], true⟩
      else
        if 0 < start then
          valueLoop n Q start pubOk indetV fuel 0 b att (it+1) tr
        else
          if indetV it then
            valueLoop n Q start pubOk indetV fuel 1 (b+1) att (it+1) tr
          else ⟨0, b, att, tr, true⟩
    else ⟨s, b, att, tr, true⟩

/-- One invocation of `publishParticleValues` from cursor `s0` with
`sentBatchMsgs = b0`, fresh attempt/iteration counters and empty trace. -/
def valueRun (n Q : Nat) (pubOk indetV : Nat → Bool) (fuel s0 b0 : Nat) :
    ValueResult :=
  valueLoop n Q s0 pubOk indetV fuel s0 b0 0 0 []

/-- One invocation of `publishParticleInits` from flag/cursor state with
`sentBatchMsgs = 0` (as in `publishParticle`). -/
def bootRun (n Q : Nat) (pubOk indetB : Nat → Bool) (fuel : Nat)
    (flag : Bool) (s0 : Nat) : BootResult :=
  bootLoop n Q pubOk indetB fuel flag s0 0 0 0 []

/-- The body of one timer-gated `publishParticle` call
(src/thermometer.ino lines 312-324): run the boot loop with `batchMsgs = 0`,
then the value loop on the returned counter; the publish-success oracle is
shared (the attempt counter is threaded through). -/
def publishParticleBody (nB nV : Nat) (flag : Bool) (sB sV : Nat)
    (pubOk indetB indetV : Nat → Bool) (fuel : Nat) :
    BootResult × ValueResult :=
  let rB := bootLoop nB PARTICLE_BATCH_LIMIT pubOk indetB fuel flag sB 0 0 0 []
  let rV := valueLoop nV PARTICLE_BATCH_LIMIT sV pubOk indetV fuel sV rB.batch
    rB.att 0 []
  (rB, rV)

/-- Number of successfully sent messages in a trace of publish attempts. -/
def countSent (tr : List (Nat × Bool)) : Nat :=
  (tr.filter (fun p => p.2)).length

lemma countSent_append (tr tl : List (Nat × Bool)) :
    countSent (tr ++ tl) = countSent tr + countSent tl := by
  simp [countSent, List.filter_append]

lemma countSent_ok (i : Nat) : countSent [(i, true)] = 1 := by
  simp [countSent]

lemma countSent_fail (i : Nat) : countSent [(i, false)] = 0 := by
  simp [countSent]

lemma bootLoop_batch (n Q : Nat) (pubOk indetB : Nat → Bool) :
    ∀ fuel flag s b att it tr, b ≤ Q →
      (bootLoop n Q pubOk indetB fuel flag s b att it tr).batch ≤ Q ∧
      countSent (bootLoop n Q pubOk indetB fuel flag s b att it tr).trace + b ≤
        countSent tr +
          (bootLoop n Q pubOk indetB fuel flag s b att it tr).batch := by
  intro fuel
  induction fuel with
  | zero => intro flag s b att it tr hb; simp [bootLoop]; omega
  | succ f ih =>
    intro flag s b att it tr hb
    by_cases hc : (flag ∧ b < Q)
    · by_cases hs : s < n
      · by_cases hp : pubOk att
        · have h := ih flag (s+1) (b+1) (att+1) (it+1) (tr ++ [(s, true)])
            (by omega)
          simp only [bootLoop, if_pos hc, if_pos hs, if_pos hp]
          rw [countSent_append, countSent_ok] at h
          omega
        · simp only [bootLoop, if_pos hc, if_pos hs, if_neg hp]
          rw [countSent_append, countSent_fail]
          constructor
          · omega
          · omega
      · by_cases hi : indetB it
        · have h := ih false 1 (b+1) att (it+1) tr (by omega)
          simp only [bootLoop, if_pos hc, if_neg hs, if_pos hi]
          omega
        · simp only [bootLoop, if_pos hc, if_neg hs, if_neg hi]
          omega
    · simp only [bootLoop, if_neg hc]
      omega

lemma valueLoop_batch (n Q start : Nat) (pubOk indetV : Nat → Bool) :
    ∀ fuel s b att it tr, b ≤ Q →
      (valueLoop n Q start pubOk indetV fuel s b att it tr).batch ≤ Q ∧
      countSent (valueLoop n Q start pubOk indetV fuel s b att it tr).trace
          + b ≤
        countSent tr +
          (valueLoop n Q start pubOk indetV fuel s b att it tr).batch := by
  intro fuel
  induction fuel with
  | zero => intro s b att it tr hb; simp [valueLoop]; omega
  | succ f ih =>
    intro s b att it tr hb
    by_cases hc : b < Q
    · by_cases hs : s < n
      · by_cases hp : pubOk att
        · have h := ih (s+1) (b+1) (att+1) (it+1) (tr ++ [(s, true)])
            (by omega)
          simp only [valueLoop, if_pos hc, if_pos hs, if_pos hp]
          rw [countSent_append, countSent_ok] at h
          omega
        · simp only [valueLoop, if_pos hc, if_pos hs, if_neg hp]
          rw [countSent_append, countSent_fail]
          constructor
          · omega
          · omega
      · by_cases h0 : 0 < start
        · have h := ih 0 b att (it+1) tr hb
          simp only [valueLoop, if_pos hc, if_neg hs, if_pos h0]
          omega
        · by_cases hi : indetV it
          · have h := ih 1 (b+1) att (it+1) tr (by omega)
            simp only [valueLoop, if_pos hc, if_neg hs, if_neg h0, if_pos hi]
            omega
          · simp only [valueLoop, if_pos hc, if_neg hs, if_neg h0, if_neg hi]
            omega
    · simp only [valueLoop, if_neg hc]
      omega

/-- C1: one timer-gated `publishParticle` invocation (boot loop followed by
value loop on one shared `batchMsgs` counter with quota
`PARTICLE_BATCH_LIMIT = 4`) successfully sends at most 4 messages, for every
boot/value table length, every phase state (flag and both cursors), every
sequence of publish successes and failures, every outcome of the
uninitialized `publishSuccess` reads, and every fuel bound (so also for
truncated/non-terminating runs). -/
theorem publishParticle_quota (nB nV : Nat) (flag : Bool) (sB sV : Nat)
    (pubOk indetB indetV : Nat → Bool) (fuel : Nat) :
    countSent
        (publishParticleBody nB nV flag sB sV pubOk indetB indetV fuel).1.trace
      + countSent
        (publishParticleBody nB nV flag sB sV pubOk indetB indetV fuel).2.trace
      ≤ PARTICLE_BATCH_LIMIT := by
  have hB := bootLoop_batch nB PARTICLE_BATCH_LIMIT pubOk indetB fuel flag sB 0
    0 0 [] (by simp [PARTICLE_BATCH_LIMIT])
  have hV := valueLoop_batch nV PARTICLE_BATCH_LIMIT sV pubOk indetV fuel sV
    (bootLoop nB PARTICLE_BATCH_LIMIT pubOk indetB fuel flag sB 0 0 0 []).batch
    (bootLoop nB PARTICLE_BATCH_LIMIT pubOk indetB fuel flag sB 0 0 0 []).att
    0 [] hB.1
  simp only [publishParticleBody]
  simp only [countSent, List.filter_nil, List.length_nil] at hB hV ⊢
  omega

lemma valueLoop_trace_extends (n Q start : Nat) (pubOk indetV : Nat → Bool) :
    ∀ fuel s b att it tr, ∃ tl,
      (valueLoop n Q start pubOk indetV fuel s b att it tr).trace = tr ++ tl := by
  intro fuel
  induction fuel with
  | zero => intro s b att it tr; exact ⟨[], by simp [valueLoop]⟩
  | succ f ih =>
    intro s b att it tr
    by_cases hc : b < Q
    · by_cases hs : s < n
      · by_cases hp : pubOk att
        · obtain ⟨tl, htl⟩ := ih (s+1) (b+1) (att+1) (it+1) (tr ++ [(s, true)])
          exact ⟨(s, true) :: tl, by
            simp only [valueLoop, if_pos hc, if_pos hs, if_pos hp, htl]
            simp⟩
        · exact ⟨[(s, false)], by
            simp only [valueLoop, if_pos hc, if_pos hs, if_neg hp]⟩
      · by_cases h0 : 0 < start
        · obtain ⟨tl, htl⟩ := ih 0 b att (it+1) tr
          exact ⟨tl, by simp only [valueLoop, if_pos hc, if_neg hs, if_pos h0,
            htl]⟩
        · by_cases hi : indetV it
          · obtain ⟨tl, htl⟩ := ih 1 (b+1) att (it+1) tr
            exact ⟨tl, by simp only [valueLoop, if_pos hc, if_neg hs,
              if_neg h0, if_pos hi, htl]⟩
          · exact ⟨[], by
              simp only [valueLoop, if_pos hc, if_neg hs, if_neg h0,
                if_neg hi, List.append_nil]⟩
    · exact ⟨[], by simp only [valueLoop, if_neg hc, List.append_nil]⟩

lemma valueLoop_fail_aux (n Q start : Nat) (pubOk indetV : Nat → Bool) :
    ∀ fuel s b att it tr, (∀ p ∈ tr, p.2 = true) →
      ∀ i, (i, false) ∈ (valueLoop n Q start pubOk indetV fuel s b att it
          tr).trace →
        (valueLoop n Q start pubOk indetV fuel s b att it tr).cursor = i ∧
        (valueLoop n Q start pubOk indetV fuel s b att it tr).trace.getLast? =
          some (i, false) ∧ i < n := by
  intro fuel
  induction fuel with
  | zero =>
    intro s b att it tr htr i hmem
    simp only [valueLoop] at hmem
    exact absurd (htr _ hmem) (by simp)
  | succ f ih =>
    intro s b att it tr htr i hmem
    by_cases hc : b < Q
    · by_cases hs : s < n
      · by_cases hp : pubOk att
        · have htr2 : ∀ p ∈ tr ++ [(s, true)], p.2 = true := by
            intro p hp2
            rcases List.mem_append.mp hp2 with h | h
            · exact htr p h
            · simp at h; simp [h]
          simp only [valueLoop, if_pos hc, if_pos hs, if_pos hp] at hmem ⊢
          exact ih (s+1) (b+1) (att+1) (it+1) (tr ++ [(s, true)]) htr2 i hmem
        · simp only [valueLoop, if_pos hc, if_pos hs, if_neg hp] at hmem ⊢
          rcases List.mem_append.mp hmem with h | h
          · exact absurd (htr _ h) (by simp)
          · simp at h
            subst h
            exact ⟨rfl, List.getLast?_concat _, hs⟩
      · by_cases h0 : 0 < start
        · simp only [valueLoop, if_pos hc, if_neg hs, if_pos h0] at hmem ⊢
          exact ih 0 b att (it+1) tr htr i hmem
        · by_cases hi : indetV it
          · simp only [valueLoop, if_pos hc, if_neg hs, if_neg h0,
              if_pos hi] at hmem ⊢
            exact ih 1 (b+1) att (it+1) tr htr i hmem
          · simp only [valueLoop, if_pos hc, if_neg hs, if_neg h0,
              if_neg hi] at hmem
            exact absurd (htr _ hmem) (by simp)
    · simp only [valueLoop, if_neg hc] at hmem
      exact absurd (htr _ hmem) (by simp)

lemma valueRun_first (n Q : Nat) (pubOk indetV : Nat → Bool)
    (fuel s0 b0 : Nat) (hs : s0 < n) (hb : b0 < Q) :
    (valueRun n Q pubOk indetV (fuel+1) s0 b0).trace.head? =
      some (s0, pubOk 0) := by
  by_cases hp : pubOk 0
  · simp only [valueRun, valueLoop, if_pos hb, if_pos hs, if_pos hp,
      List.nil_append]
    obtain ⟨tl, htl⟩ := valueLoop_trace_extends n Q s0 pubOk indetV fuel
      (s0+1) (b0+1) (0+1) (0+1) [(s0, true)]
    rw [htl]
    simp [hp]
  · simp only [valueRun, valueLoop, if_pos hb, if_pos hs, if_neg hp,
      List.nil_append]
    simp [Bool.eq_false_iff.mpr hp]

/-- C2: if in a value-phase invocation the publish of the message at cursor
index `i` fails, the loop stops immediately: the failed attempt is the last
one of the invocation, the static cursor `sendMsgNo` is left at `i`, and any
next invocation with remaining quota attempts message `i` first (at-least-
once, in-order delivery; no message skipped). -/
theorem valueRun_fail_resume (n Q : Nat) (pubOk indetV : Nat → Bool)
    (fuel s0 b0 i : Nat)
    (hfail : (i, false) ∈ (valueRun n Q pubOk indetV fuel s0 b0).trace) :
    (valueRun n Q pubOk indetV fuel s0 b0).cursor = i ∧
    (valueRun n Q pubOk indetV fuel s0 b0).trace.getLast? = some (i, false) ∧
    ∀ (pubOk2 indetV2 : Nat → Bool) (fuel2 b2 : Nat), b2 < Q →
      (valueRun n Q pubOk2 indetV2 (fuel2+1)
          (valueRun n Q pubOk indetV fuel s0 b0).cursor b2).trace.head? =
        some (i, pubOk2 0) := by
  have h := valueLoop_fail_aux n Q s0 pubOk indetV fuel s0 b0 0 0 []
    (by simp) i hfail
  have h1 : (valueRun n Q pubOk indetV fuel s0 b0).cursor = i := h.1
  refine ⟨h1, h.2.1, ?_⟩
  intro pubOk2 indetV2 fuel2 b2 hb2
  rw [h1]
  exact valueRun_first n Q pubOk2 indetV2 fuel2 i b2 h.2.2 hb2

/-- Witness for C2: table length 3, quota 4, cursor 0; the first publish
succeeds and the second (index 1) fails, so the invocation stops with cursor
1 and the next invocation attempts index 1 first. -/
theorem valueRun_fail_resume_witness :
    (1, false) ∈
        (valueRun 3 4 (fun k => decide (k < 1)) (fun _ => true) 12 0 0).trace ∧
    (valueRun 3 4 (fun k => decide (k < 1)) (fun _ => true) 12 0 0).cursor
        = 1 ∧
    (valueRun 3 4 (fun k => decide (k < 1)) (fun _ => true) 12 0
        0).trace.getLast? = some (1, false) ∧
    (valueRun 3 4 (fun _ => true) (fun _ => true) 12 1 0).trace.head? =
      some (1, true) := by
  have hmem : (1, false) ∈
      (valueRun 3 4 (fun k => decide (k < 1)) (fun _ => true) 12 0 0).trace :=
    by decide
  have h := valueRun_fail_resume 3 4 (fun k => decide (k < 1)) (fun _ => true)
    12 0 0 1 hmem
  refine ⟨hmem, h.1, h.2.1, ?_⟩
  have h4 := h.2.2 (fun _ => true) (fun _ => true) 11 0 (by norm_num)
  rw [h.1] at h4
  simpa using h4

/-- C3: evaluation of the boot-to-value quota handoff of thermometer.ino
(boot table length 5, value table length 5, quota 4, all publishes
succeeding).  The first invocation sends boot indices 0-3 and leaves the
boot phase incomplete (cursor 4).  In the second invocation the boot loop
sends index 4 and reaches the `default:` case, which clears the flag and
then reads the uninitialized `publishSuccess`: if that indeterminate value
is false the value phase receives 3 remaining quota and sends value indices
0,1,2 (as the claim states); if it is true a phantom message is counted and
the value phase receives only 2 quota, sending just indices 0,1.  The
handed-over quota therefore depends on an uninitialized read. -/
theorem publishParticle_bootHandoff_indet :
    (publishParticleBody 5 5 true 0 0 (fun _ => true) (fun _ => true)
        (fun _ => true) 12).1.trace
      = [(0, true), (1, true), (2, true), (3, true)] ∧
    (publishParticleBody 5 5 true 0 0 (fun _ => true) (fun _ => true)
        (fun _ => true) 12).1.flag = true ∧
    (publishParticleBody 5 5 true 0 0 (fun _ => true) (fun _ => true)
        (fun _ => true) 12).1.cursor = 4 ∧
    (publishParticleBody 5 5 true 0 0 (fun _ => true) (fun _ => true)
        (fun _ => true) 12).2.trace = [] ∧
    (publishParticleBody 5 5 true 4 0 (fun _ => true) (fun _ => false)
        (fun _ => true) 12).1.trace = [(4, true)] ∧
    (publishParticleBody 5 5 true 4 0 (fun _ => true) (fun _ => false)
        (fun _ => true) 12).1.flag = false ∧
    (publishParticleBody 5 5 true 4 0 (fun _ => true) (fun _ => false)
        (fun _ => true) 12).1.batch = 1 ∧
    (publishParticleBody 5 5 true 4 0 (fun _ => true) (fun _ => false)
        (fun _ => true) 12).2.trace = [(0, true), (1, true), (2, true)] ∧
    (publishParticleBody 5 5 true 4 0 (fun _ => true) (fun _ => true)
        (fun _ => true) 12).1.trace = [(4, true)] ∧
    (publishParticleBody 5 5 true 4 0 (fun _ => true) (fun _ => true)
        (fun _ => true) 12).1.flag = false ∧
    (publishParticleBody 5 5 true 4 0 (fun _ => true) (fun _ => true)
        (fun _ => true) 12).1.batch = 2 ∧
    (publishParticleBody 5 5 true 4 0 (fun _ => true) (fun _ => true)
        (fun _ => true) 12).2.trace = [(0, true), (1, true)] := by
  decide

/-- C4 counterexample: value table length 3, quota 4, cursor 0, all sends
succeeding.  The claim says the invocation sends indices 0,1,2,0; the code
sends only 0,1,2 and stops at the wrap (for either outcome of the
uninitialized `publishSuccess` read on the wrap-stop path), because the
`default:` case `continue`s only when `startMsgNo > 0`. -/
theorem valueRotation_scenario_cex :
    (valueRun 3 4 (fun _ => true) (fun _ => true) 12 0 0).trace.map Prod.fst
        = [0, 1, 2] ∧
    (valueRun 3 4 (fun _ => true) (fun _ => false) 12 0 0).trace.map Prod.fst
        = [0, 1, 2] ∧
    ([0, 1, 2] : List Nat) ≠ [0, 1, 2, 0] := by
  decide

/-- C4 (amended): with value table length 3, quota 4 and all sends
succeeding, an invocation starting at cursor 0 sends indices 0,1,2 and stops
at the wrap without repeating index 0 (the sent messages are the same for
either outcome of the uninitialized read, which only decides the final
cursor and batch counter); an invocation whose starting cursor is nonzero
continues rotating through the wrap, sending one full rotation plus a repeat
of its first message when the quota allows. -/
theorem valueRotation_wrap_rule :
    (valueRun 3 4 (fun _ => true) (fun _ => true) 12 0 0).trace.map Prod.fst
        = [0, 1, 2] ∧
    (valueRun 3 4 (fun _ => true) (fun _ => false) 12 0 0).trace.map Prod.fst
        = [0, 1, 2] ∧
    (valueRun 3 4 (fun _ => true) (fun _ => true) 12 0 0).cursor = 1 ∧
    (valueRun 3 4 (fun _ => true) (fun _ => true) 12 0 0).batch = 4 ∧
    (valueRun 3 4 (fun _ => true) (fun _ => false) 12 0 0).cursor = 0 ∧
    (valueRun 3 4 (fun _ => true) (fun _ => false) 12 0 0).batch = 3 ∧
    (valueRun 3 4 (fun _ => true) (fun _ => true) 12 1 0).trace.map Prod.fst
        = [1, 2, 0, 1] ∧
    (valueRun 3 4 (fun _ => true) (fun _ => true) 12 2 0).trace.map Prod.fst
        = [2, 0, 1, 2] ∧
    (valueRun 3 4 (fun _ => true) (fun _ => true) 12 3 0).trace.map Prod.fst
        = [0, 1, 2, 0] := by
  decide

/-- One value-phase invocation of thermometer.ino as compiled: table length
5, quota `PARTICLE_BATCH_LIMIT = 4`, every send succeeding, fuel ample. -/
def valueRunCfg (indetV : Nat → Bool) (s0 b0 : Nat) : ValueResult :=
  valueRun 5 4 (fun _ => true) indetV 12 s0 b0

/-- A sequence of value-phase invocations threading the static cursor, one
entry of `bs` per invocation giving its already-consumed quota
(`sentBatchMsgs` handed over from the boot loop).  Returns the concatenated
list of sent message indices and the final cursor. -/
def runValueSeq (indetV : Nat → Bool) : Nat → List Nat → List Nat × Nat
  | c, [] => ([], c)
  | c, b :: bs =>
    let r := valueRunCfg indetV c b
    let rest := runValueSeq indetV r.cursor bs
    (r.trace.map Prod.fst ++ rest.1, rest.2)

lemma valueLoop_indet_irrel (n Q start : Nat) (pubOk i1 i2 : Nat → Bool) :
    ∀ fuel s b att it tr, (0 < start ∨ s + Q ≤ b + n) →
      valueLoop n Q start pubOk i1 fuel s b att it tr =
        valueLoop n Q start pubOk i2 fuel s b att it tr := by
  intro fuel
  induction fuel with
  | zero => intro s b att it tr _; rfl
  | succ f ih =>
    intro s b att it tr h
    by_cases hc : b < Q
    · by_cases hs : s < n
      · by_cases hp : pubOk att
        · simp only [valueLoop, if_pos hc, if_pos hs, if_pos hp]
          refine ih (s+1) (b+1) (att+1) (it+1) (tr ++ [(s, true)]) ?_
          rcases h with h | h
          · exact Or.inl h
          · exact Or.inr (by omega)
        · simp only [valueLoop, if_pos hc, if_pos hs, if_neg hp]
      · by_cases h0 : 0 < start
        · simp only [valueLoop, if_pos hc, if_neg hs, if_pos h0]
          exact ih 0 b att (it+1) tr (Or.inl h0)
        · rcases h with h | h
          · omega
          · omega
    · simp only [valueLoop, if_neg hc]

lemma valueRunCfg_indet (i1 i2 : Nat → Bool) (c b : Nat) :
    valueRunCfg i1 c b = valueRunCfg i2 c b := by
  rcases Nat.eq_zero_or_pos c with hc | hc
  · subst hc
    exact valueLoop_indet_irrel 5 4 0 (fun _ => true) i1 i2 12 0 b 0 0 []
      (Or.inr (by omega))
  · exact valueLoop_indet_irrel 5 4 c (fun _ => true) i1 i2 12 c b 0 0 []
      (Or.inl hc)

/-- The cyclic index stream of the 5-entry value table, starting at
position `k`. -/
def cycFrom (k len : Nat) : List Nat :=
  (List.range len).map (fun j => (k + j) % 5)

lemma cycFrom_congr (k k2 len : Nat) (h : k % 5 = k2 % 5) :
    cycFrom k len = cycFrom k2 len := by
  unfold cycFrom
  refine List.map_congr_left ?_
  intro j _
  omega

lemma cycFrom_append (k a c : Nat) :
    cycFrom k a ++ cycFrom (k + a) c = cycFrom k (a + c) := by
  unfold cycFrom
  rw [List.range_add, List.map_append, List.map_map]
  congr 1
  refine List.map_congr_left ?_
  intro j _
  simp [Function.comp]
  omega

lemma valueRunCfg_allOk :
    ∀ c < 6, ∀ b < 4,
      (valueRunCfg (fun _ => true) c b).trace.map Prod.fst =
          cycFrom c (4 - b) ∧
      (valueRunCfg (fun _ => true) c b).cursor ≤ 5 ∧
      (valueRunCfg (fun _ => true) c b).cursor % 5 = (c + (4 - b)) % 5 := by
  decide

lemma valueLoop_succ (n Q start : Nat) (pubOk indetV : Nat → Bool)
    (fuel s b att it : Nat) (tr : List (Nat × Bool)) :
    valueLoop n Q start pubOk indetV (fuel+1) s b att it tr =
      if b < Q then
        if s < n then
          if pubOk att then
            valueLoop n Q start pubOk indetV fuel (s+1) (b+1) (att+1) (it+1)
              (tr ++ [(s, true)])
          else ⟨s, b, att+1, tr ++ [(s, false)], true⟩
        else
          if 0 < start then
            valueLoop n Q start pubOk indetV fuel 0 b att (it+1) tr
          else
            if indetV it then
              valueLoop n Q start pubOk indetV fuel 1 (b+1) att (it+1) tr
            else ⟨0, b, att, tr, true⟩
      else ⟨s, b, att, tr, true⟩ := rfl

lemma valueRunCfg_noRoom (indetV : Nat → Bool) (c b : Nat) (h : ¬ b < 4) :
    (valueRunCfg indetV c b).trace = [] ∧
    (valueRunCfg indetV c b).cursor = c := by
  rw [show valueRunCfg indetV c b =
    valueLoop 5 4 c (fun _ => true) indetV (11+1) c b 0 0 [] from rfl]
  rw [valueLoop_succ, if_neg h]
  exact ⟨rfl, rfl⟩

lemma runValueSeq_cyclic_aux (indetV : Nat → Bool) :
    ∀ (bs : List Nat) (c k : Nat), c ≤ 5 → c % 5 = k % 5 →
      (runValueSeq indetV c bs).1 =
          cycFrom k (runValueSeq indetV c bs).1.length ∧
      (runValueSeq indetV c bs).2 ≤ 5 ∧
      (runValueSeq indetV c bs).2 % 5 =
          (k + (runValueSeq indetV c bs).1.length) % 5 := by
  intro bs
  induction bs with
  | nil =>
    intro c k hc hk
    refine ⟨rfl, hc, ?_⟩
    simpa [runValueSeq, cycFrom] using hk
  | cons b bs ih =>
    intro c k hc hk
    by_cases hb : b < 4
    · have hswap := valueRunCfg_indet indetV (fun _ => true) c b
      have hrun := valueRunCfg_allOk c (by omega) b hb
      have hlen : (valueRunCfg indetV c b).trace.map Prod.fst =
          cycFrom k (4 - b) := by
        rw [hswap, hrun.1]
        exact cycFrom_congr c k (4 - b) hk
      have hcur1 : (valueRunCfg indetV c b).cursor ≤ 5 := by
        rw [hswap]; exact hrun.2.1
      have hcur2 : (valueRunCfg indetV c b).cursor % 5 = (k + (4 - b)) % 5 :=
        by
        rw [hswap, hrun.2.2]
        omega
      have hrest := ih (valueRunCfg indetV c b).cursor (k + (4 - b)) hcur1
        hcur2
      simp only [runValueSeq]
      refine ⟨?_, hrest.2.1, ?_⟩
      · rw [hlen, hrest.1, cycFrom_append]
        congr 1
        simp [cycFrom]
      · rw [hrest.2.2, List.length_append, hlen]
        simp only [cycFrom, List.length_map, List.length_range]
        omega
    · have hnr := valueRunCfg_noRoom indetV c b hb
      have hrest := ih (valueRunCfg indetV c b).cursor k
        (by rw [hnr.2]; exact hc) (by rw [hnr.2]; exact hk)
      simp only [runValueSeq, hnr.1, List.map_nil, List.nil_append]
      exact hrest

/-- C5: across any sequence of value-phase invocations of thermometer.ino
(table length 5, quota 4) in which every send succeeds, starting from the
power-up cursor 0 and with arbitrary quota amounts already consumed by the
boot phase in each invocation, the concatenated list of sent message
indices is an initial segment of the cyclic stream 0,1,2,3,4,0,1,...; in
particular every message is sent once before any message is sent twice. -/
theorem valueRotation_fair (bs : List Nat) (indetV : Nat → Bool) :
    (runValueSeq indetV 0 bs).1 =
      (List.range (runValueSeq indetV 0 bs).1.length).map (fun j => j % 5) :=
  by
  have hz : ∀ len, cycFrom 0 len = (List.range len).map (fun j => j % 5) :=
    by
    intro len
    unfold cycFrom
    refine List.map_congr_left ?_
    intro j _
    omega
  rw [← hz]
  exact (runValueSeq_cyclic_aux indetV bs 0 0 (by omega) rfl).1

/-- The threshold ladder `TEMP_BUCKET` from the source; the float literals
are exactly representable and only compared, so ℚ is a faithful model. -/
def TEMP_BUCKET : List ℚ := [0, 5, 16, 20, 24, 28]

/-- The status-computation loop of `measureTemp` (src/thermometer.ino lines
282-286): starting from status 0, for each table position `i` in order, if
`value >= TEMP_BUCKET[i]` the status is overwritten with `i + 1`. -/
def statusScan (v : ℚ) : List ℚ → Nat → Nat → Nat
  | [], _, st => st
  | t :: ts, i, st => statusScan v ts (i+1) (if t ≤ v then i+1 else st)

/-- The `tempStatus` computed by `measureTemp` for a value `v`. -/
def tempStatusOf (v : ℚ) : Nat := statusScan v TEMP_BUCKET 0 0

/-- The classification as the claim words it (for the refinement comparison
only): the greatest index `i` such that `v >= T[i]`, if any. -/
def greatestBucket (v : ℚ) : Option Nat :=
  ((List.range TEMP_BUCKET.length).filter
    (fun i => TEMP_BUCKET.getD i 0 ≤ v)).max?

/-- The claim's literal status value: the greatest satisfied index, or 0
when the value is below all thresholds. -/
def claimStatusOf (v : ℚ) : Nat := (greatestBucket v).getD 0

/-- C6 counterexample: at `v = 5` the greatest index `i` with `v ≥ T[i]` is
1, but the code computes status 2: the scan stores `i + 1`, not `i`. -/
theorem tempStatus_cex :
    tempStatusOf 5 = 2 ∧ claimStatusOf 5 = 1 ∧ (2 : Nat) ≠ 1 := by decide

lemma tempStatusOf_eq (v : ℚ) : tempStatusOf v =
    if (28:ℚ) ≤ v then 6 else if (24:ℚ) ≤ v then 5 else
    if (20:ℚ) ≤ v then 4 else if (16:ℚ) ≤ v then 3 else
    if (5:ℚ) ≤ v then 2 else if (0:ℚ) ≤ v then 1 else 0 := by
  simp only [tempStatusOf, TEMP_BUCKET, statusScan]

lemma greatestBucket_eq (v : ℚ) : greatestBucket v =
    if (28:ℚ) ≤ v then some 5 else if (24:ℚ) ≤ v then some 4 else
    if (20:ℚ) ≤ v then some 3 else if (16:ℚ) ≤ v then some 2 else
    if (5:ℚ) ≤ v then some 1 else if (0:ℚ) ≤ v then some 0 else none := by
  have hr : List.range TEMP_BUCKET.length = [0, 1, 2, 3, 4, 5] := by decide
  have g0 : TEMP_BUCKET.getD 0 0 = (0:ℚ) := by decide
  have g1 : TEMP_BUCKET.getD 1 0 = (5:ℚ) := by decide
  have g2 : TEMP_BUCKET.getD 2 0 = (16:ℚ) := by decide
  have g3 : TEMP_BUCKET.getD 3 0 = (20:ℚ) := by decide
  have g4 : TEMP_BUCKET.getD 4 0 = (24:ℚ) := by decide
  have g5 : TEMP_BUCKET.getD 5 0 = (28:ℚ) := by decide
  simp only [greatestBucket, hr, List.filter_cons, List.filter_nil,
    g0, g1, g2, g3, g4, g5, decide_eq_true_eq]
  split_ifs <;> rfl

lemma statusScan_mono (v w : ℚ) (hvw : v ≤ w) :
    ∀ ts i st1 st2, st1 ≤ st2 → st1 ≤ i → st2 ≤ i →
      statusScan v ts i st1 ≤ statusScan w ts i st2 := by
  intro ts
  induction ts with
  | nil => intro i st1 st2 h12 _ _; simpa [statusScan] using h12
  | cons t ts ih =>
    intro i st1 st2 h12 h1 h2
    simp only [statusScan]
    by_cases hv : t ≤ v
    · have hw : t ≤ w := le_trans hv hvw
      rw [if_pos hv, if_pos hw]
      exact ih (i+1) (i+1) (i+1) le_rfl le_rfl le_rfl
    · by_cases hw : t ≤ w
      · rw [if_neg hv, if_pos hw]
        exact ih (i+1) st1 (i+1) (by omega) (by omega) le_rfl
      · rw [if_neg hv, if_neg hw]
        exact ih (i+1) st1 st2 h12 (by omega) (by omega)

/-- C6 (amended): the computed status is ONE PLUS the greatest index `i`
with `v ≥ T[i]` (status 0, unknown, when `v` is below all thresholds), via
the linear scan keeping the last satisfied position; the status is monotone
non-decreasing in `v`. -/
theorem tempStatus_amended :
    (∀ v : ℚ, tempStatusOf v =
      (match greatestBucket v with
        | some i => i + 1
        | none => 0)) ∧
    (∀ v w : ℚ, v ≤ w → tempStatusOf v ≤ tempStatusOf w) := by
  constructor
  · intro v
    rw [tempStatusOf_eq, greatestBucket_eq]
    split_ifs <;> rfl
  · intro v w hvw
    exact statusScan_mono v w hvw TEMP_BUCKET 0 0 0 le_rfl le_rfl le_rfl

/-- Witness for C6 (amended) at concrete inputs. -/
theorem tempStatus_amended_witness :
    tempStatusOf 5 = 2 ∧ (3:ℚ) ≤ 10 ∧ tempStatusOf 3 ≤ tempStatusOf 10 := by
  refine ⟨?_, by norm_num, tempStatus_amended.2 3 10 (by norm_num)⟩
  rw [tempStatus_amended.1 5]
  decide

/-- Unsigned 32-bit subtraction `a - b` as C computes it on the
`unsigned long` millisecond clock. -/
def wrapSub (a b : Nat) : Nat := (a + 2^32 - b % 2^32) % 2^32

/-- `PERIOD_MEASURE_TEMP_TREND` from the source. -/
def PERIOD_MEASURE_TEMP_TREND : Nat := 60000

/-- The temperature sentinel `TEMP_VALUE_NAN`. -/
def TEMP_VALUE_NAN : ℚ := -999

/-- The static state of `measureTempTrend`: period timestamp, previous
window-start timestamp, baseline value, and the published trend. -/
structure TrendState where
  tsMeasure    : Nat
  tsMeasureOld : Nat
  tempValueOld : ℚ
  tempTrend    : ℚ
  deriving DecidableEq

/-- Faithful model of `measureTempTrend` (src/thermometer.ino lines
291-306): refuse to run on the sentinel; when the period gate passes, take
the timestamp, compute the trend only when the stored window start is
nonzero, then re-seed window start and baseline. -/
def measureTempTrend (tempValue : ℚ) (millis : Nat) (st : TrendState) :
    TrendState :=
  if tempValue = TEMP_VALUE_NAN then st
  else if PERIOD_MEASURE_TEMP_TREND ≤ wrapSub millis st.tsMeasure ∨
      st.tsMeasure = 0 then
    { tsMeasure := millis
      tsMeasureOld := millis
      tempValueOld := tempValue
      tempTrend :=
        if 0 < st.tsMeasureOld then
          60000 * (tempValue - st.tempValueOld) /
            ((millis : ℚ) - (st.tsMeasureOld : ℚ))
        else st.tempTrend }
  else st

/-- C7: when the temperature still holds the sentinel `TEMP_VALUE_NAN`, a
call to `measureTempTrend` is a defined no-operation: the whole static
state (timestamps, baseline, trend) is returned unchanged, at any time. -/
theorem measureTempTrend_nan (millis : Nat) (st : TrendState) :
    measureTempTrend TEMP_VALUE_NAN millis st = st := by
  simp [measureTempTrend]

/-- C8 counterexample: seeding the estimator at exactly t = 0 stores window
start 0 — which is also the never-seeded sentinel — so the call with value
21.0 at t = 60000 computes no rate: the trend stays 0, not 1. -/
theorem measureTempTrend_t0_cex :
    (measureTempTrend 21 60000
        (measureTempTrend 20 0 ⟨0, 0, 0, 0⟩)).tempTrend = 0 ∧
    ((0:ℚ) ≠ 1) := by decide

/-- C8 (amended): when the gate passes on a non-sentinel value, a call with
stored window start 0 (the first effective call, or one whose seed happened
at exactly t = 0) only seeds baseline and timestamps and leaves the trend
unchanged; a call with a nonzero stored window start sets the trend to
`60000 * (current - baseline) / (now - windowStart)` and re-seeds; the
claim's scenario holds shifted off t = 0: baseline 20.0 seeded at t = 1 and
value 21.0 at t = 60001 give rate 1.0. -/
theorem measureTempTrend_window (v : ℚ) (now : Nat) (st : TrendState)
    (hv : v ≠ TEMP_VALUE_NAN)
    (hgate : PERIOD_MEASURE_TEMP_TREND ≤ wrapSub now st.tsMeasure ∨
      st.tsMeasure = 0) :
    (st.tsMeasureOld = 0 →
      measureTempTrend v now st = ⟨now, now, v, st.tempTrend⟩) ∧
    (0 < st.tsMeasureOld →
      measureTempTrend v now st =
        ⟨now, now, v, 60000 * (v - st.tempValueOld) /
          ((now : ℚ) - (st.tsMeasureOld : ℚ))⟩) ∧
    (measureTempTrend 21 60001 (measureTempTrend 20 1 ⟨0, 0, 0, 0⟩)).tempTrend
      = 1 := by
  refine ⟨?_, ?_, ?_⟩
  · intro h0
    simp [measureTempTrend, hv, hgate, h0]
  · intro hpos
    simp [measureTempTrend, hv, hgate, hpos]
  · have h1 : measureTempTrend 20 1 ⟨0, 0, 0, 0⟩ = ⟨1, 1, 20, 0⟩ := by
      norm_num [measureTempTrend, TEMP_VALUE_NAN, PERIOD_MEASURE_TEMP_TREND,
        wrapSub]
    rw [h1]
    norm_num [measureTempTrend, TEMP_VALUE_NAN, PERIOD_MEASURE_TEMP_TREND,
      wrapSub]

/-- Witness for C8 (amended) at concrete inputs. -/
theorem measureTempTrend_window_witness :
    (21:ℚ) ≠ TEMP_VALUE_NAN ∧
    (PERIOD_MEASURE_TEMP_TREND ≤ wrapSub 60001 1 ∨ (1:Nat) = 0) ∧
    (0:Nat) < 1 ∧
    measureTempTrend 21 60001 ⟨1, 1, 20, 0⟩ =
      ⟨60001, 60001, 21,
        60000 * ((21:ℚ) - 20) / ((60001:ℚ) - ((1:Nat) : ℚ))⟩ := by
  refine ⟨by decide, by decide, by decide, ?_⟩
  exact (measureTempTrend_window 21 60001 ⟨1, 1, 20, 0⟩ (by decide)
    (by decide)).2.1 (by decide)

/-- The extremes reset of the Blynk write handler (src/thermometer.ino
lines 558-566): both extrema are set to the current temperature value. -/
def resetExtremes (tempValue : ℚ) : ℚ × ℚ := (tempValue, tempValue)

/-- The extremes fold of `measureTemp` (src/thermometer.ino lines 279-280):
min into the first component, max into the second. -/
def foldExtremes (mm : ℚ × ℚ) (v : ℚ) : ℚ × ℚ :=
  (min mm.1 v, max mm.2 v)

/-- C9: `resetExtremes` sets both extrema to the current value (not to the
power-up sentinels); reset followed by folding a reading at the reset point
yields min = max = value; folding the same reading again changes nothing
(idempotence). -/
theorem resetExtremes_fold (v m M : ℚ) :
    resetExtremes v = (v, v) ∧
    foldExtremes (resetExtremes v) v = (v, v) ∧
    foldExtremes (foldExtremes (m, M) v) v = foldExtremes (m, M) v := by
  refine ⟨rfl, ?_, ?_⟩
  · simp [resetExtremes, foldExtremes]
  · simp [foldExtremes, min_assoc, max_assoc]

/-- Modelled from the spec: the state and update of the external
`ExponentialFilter` library (its source is not part of this repository);
spec 4.2: on the first call the estimate is the raw value, afterwards
`estimate += factor * (raw - estimate)`. -/
structure ExpFilterState where
  primed : Bool
  est    : ℚ
  deriving DecidableEq

/-- Modelled from the spec: `ExponentialFilter.getValue`. -/
def efUpdate (factor : ℚ) (st : ExpFilterState) (raw : ℚ) : ExpFilterState :=
  if st.primed then ⟨true, st.est + factor * (raw - st.est)⟩ else ⟨true, raw⟩

/-- `FACTOR_RSSI = 0.1` from the source (the float 0.1 is modelled as the
exact rational; only its size matters here). -/
def FACTOR_RSSI : ℚ := 1/10

/-- `PERIOD_MEASURE_RSSI` from the source. -/
def PERIOD_MEASURE_RSSI : Nat := 2000

/-- Truncation toward zero, as the C conversion from float to int performs
when the filter output is assigned to the int `rssiValue`. -/
def truncToInt (q : ℚ) : Int := if 0 ≤ q then ⌊q⌋ else ⌈q⌉

/-- The static/global state touched by `measureRssi`. -/
structure RssiState where
  tsMeasure : Nat
  ef        : ExpFilterState
  rssiValue : Int
  deriving DecidableEq

/-- Faithful model of `measureRssi` (src/thermometer.ino lines 257-269).
When the period gate passes, the code reads `WiFi.RSSI()` twice: `value`
(= `sample1`) only gates the branch, while the argument actually passed to
the exponential filter is the second, independent read (= `sample2`). -/
def measureRssi (millis : Nat) (sample1 sample2 : Int) (st : RssiState) :
    RssiState :=
  if PERIOD_MEASURE_RSSI ≤ wrapSub millis st.tsMeasure ∨ st.tsMeasure = 0
  then
    if sample1 < 0 then
      let ef2 := efUpdate FACTOR_RSSI st.ef (sample2 : ℚ)
      ⟨millis, ef2, truncToInt ef2.est⟩
    else ⟨millis, st.ef, st.rssiValue⟩
  else st

/-- C10: evaluation showing the claim's first half (a non-negative first
sample leaves `rssiValue` unchanged) and the violation of its conclusion:
with a valid first sample (-50) and an invalid second sample (2 ≥ 0), the
filter is fed the unvalidated second sample and `rssiValue` moves from -50
to -44, i.e. an invalid radio reading does corrupt the published value. -/
theorem measureRssi_secondSample :
    (measureRssi 2000 7 (-60) ⟨0, ⟨true, -50⟩, -50⟩).rssiValue = -50 ∧
    (measureRssi 2000 (-50) 2 ⟨0, ⟨true, -50⟩, -50⟩).rssiValue = -44 ∧
    (0:Int) ≤ 2 := by
  refine ⟨?_, ?_, by norm_num⟩
  · norm_num [measureRssi, PERIOD_MEASURE_RSSI, wrapSub]
  · have h2 : efUpdate FACTOR_RSSI ⟨true, -50⟩ (2:ℚ) =
        ⟨true, -224/5⟩ := by
      norm_num [efUpdate, FACTOR_RSSI]
    have hceil : ⌈(-(224/5) : ℚ)⌉ = -44 := by
      rw [Int.ceil_eq_iff]
      norm_num
    norm_num [measureRssi, PERIOD_MEASURE_RSSI, wrapSub, h2, truncToInt,
      hceil]

end Thermometer
